import Mathlib

/-!
Verification development for the AMASS download/extract utilities
(download_amass.py and extract_amass.py).

The Python sources are shallowly embedded: pure string manipulation is
translated directly; I/O (HTTP responses, the filesystem, archive
extraction, deletion) is modelled by explicit oracles passed as
parameters, so that every run of the embedded code is a pure function of
the program inputs and the environment's responses.
-/

/-- The fixed download endpoint (`AMassDownloader.DOWNLOAD_URL`). -/
def DOWNLOAD_URL : String := "https://download.is.tue.mpg.de/download.php"

/-- Embedding of `AMassDownloader.get_download_url`: from dataset name,
body model and gender, build the remote URL and the local filename. -/
def get_download_url (dataset body_model gender : String) : String × String :=
  let model_dir :=
    if body_model = "SMPL-H" then "smplh"
    else if body_model = "SMPL-X" then "smplx"
    else "smplh"
  let gender_dir :=
    if gender = "male" ∨ gender = "female" then "gender_specific" else "neutral"
  let sfile :=
    "amass_per_dataset/" ++ model_dir ++ "/" ++ gender_dir ++ "/mosh_results/" ++
      dataset ++ ".tar.bz2"
  let url := DOWNLOAD_URL ++ "?domain=amass&resume=1&sfile=" ++ sfile
  let filename := dataset ++ "_" ++ model_dir ++ "_" ++ gender ++ ".tar.bz2"
  (url, filename)

/-- Modelled from the spec (claim C1): the model directory is "smplh" for
"SMPL-H", "smplx" for "SMPL-X", and "smplh" for any other value. -/
def spec_model_dir (body_model : String) : String :=
  if body_model = "SMPL-H" then "smplh"
  else if body_model = "SMPL-X" then "smplx"
  else "smplh"

/-- Modelled from the spec (claim C1): the gender directory is
"gender_specific" for "male" or "female" and "neutral" otherwise. -/
def spec_gender_dir (gender : String) : String :=
  if gender = "male" ∨ gender = "female" then "gender_specific" else "neutral"

/-- Modelled from the spec (claim C1): the url is the fixed endpoint with
query parameters domain=amass&resume=1&sfile=<path>, and the local
filename is <dataset>_<model_dir>_<gender>.tar.bz2. -/
def spec_download_url (dataset body_model gender : String) : String × String :=
  ("https://download.is.tue.mpg.de/download.php" ++ "?domain=amass&resume=1&sfile=" ++
    ("amass_per_dataset/" ++ spec_model_dir body_model ++ "/" ++
      spec_gender_dir gender ++ "/mosh_results/" ++ dataset ++ ".tar.bz2"),
   dataset ++ "_" ++ spec_model_dir body_model ++ "_" ++ gender ++ ".tar.bz2")

/-- Outcome of one HTTP GET issued by `download_file`: either a response
with a status code, or a transport exception. -/
inductive Outcome where
  | status (code : Nat)
  | exc
deriving DecidableEq, Repr

/-- The per-attempt decision of `download_file`'s loop body: status 200
writes the file and returns True, status 401/403 returns False at once,
any other status or an exception falls through to the retry logic. -/
def responseStep : Outcome → Option Bool
  | Outcome.status code =>
      if code = 200 then some true
      else if code = 401 ∨ code = 403 then some false
      else none
  | Outcome.exc => none

/-- Classifier for the outcomes the code treats as transient (retryable):
a status other than 200, 401, 403, or a transport exception. -/
def transientOutcome : Outcome → Bool
  | Outcome.status code => !(code == 200 || code == 401 || code == 403)
  | Outcome.exc => true

/-- Observable trace of one `download_file` call: the returned Bool, the
number of HTTP requests issued, and the list of sleep durations in
seconds, in order. -/
structure DLRun where
  success : Bool
  attempts : Nat
  sleeps : List Nat
deriving DecidableEq, Repr

/-- Embedding of the retry loop of `AMassDownloader.download_file`:
`fuel` counts the attempts still allowed (`maxRetries - attempt`), making
the `for attempt in range(max_retries)` loop structurally recursive.
Each pass issues the request (outcome given by the oracle `resp`),
returns on 200 or 401/403, and otherwise sleeps `5 * (attempt + 1)`
seconds when another attempt remains (the code's
`attempt < max_retries - 1` check); exhausting the loop returns
failure. -/
def download_file_loop (resp : Nat → Outcome) (maxRetries : Nat) :
    Nat → Nat → DLRun
  | 0, _ => ⟨false, 0, []⟩
  | fuel + 1, attempt =>
    match responseStep (resp attempt) with
    | some b => ⟨b, 1, []⟩
    | none =>
        if attempt < maxRetries - 1 then
          let rest := download_file_loop resp maxRetries fuel (attempt + 1)
          ⟨rest.success, rest.attempts + 1, 5 * (attempt + 1) :: rest.sleeps⟩
        else ⟨false, 1, []⟩

/-- Embedding of `AMassDownloader.download_file`: run the retry loop from
attempt 0 with all `maxRetries` attempts available. The url and output
path only affect I/O and are absorbed into the oracle `resp`. -/
def download_file (resp : Nat → Outcome) (maxRetries : Nat) : DLRun :=
  download_file_loop resp maxRetries maxRetries 0

/-- The configuration fields of config.json that the downloader's
per-dataset path (`download_options.body_model`, `download_options.gender`,
`download_settings.output_dir`, `download_settings.max_retries`) reads. -/
structure DLConfig where
  body_model : String
  gender : String
  output_dir : String
  max_retries : Nat
deriving DecidableEq, Repr

/-- The destination path `os.path.join(output_dir, filename)` computed by
`AMassDownloader.download_dataset` (output_dir is a plain relative or
absolute directory, so join inserts one separator). -/
def output_path (cfg : DLConfig) (dataset : String) : String :=
  cfg.output_dir ++ "/" ++ (get_download_url dataset cfg.body_model cfg.gender).2

/-- Observable trace of one `download_dataset` call: the returned Bool,
the number of HTTP requests issued, and the list of paths written. -/
structure DatasetRun where
  success : Bool
  requests : Nat
  writes : List String
deriving DecidableEq, Repr

/-- Embedding of `AMassDownloader.download_dataset`: `fs` is the set of
paths that exist on disk (the `os.path.exists` oracle). If the
destination path already exists the call returns True at once; otherwise
it runs `download_file`, which writes the destination exactly when some
attempt returns 200, i.e. when it succeeds. -/
def download_dataset (cfg : DLConfig) (fs : List String) (resp : Nat → Outcome)
    (dataset : String) : DatasetRun :=
  let path := output_path cfg dataset
  if path ∈ fs then ⟨true, 0, []⟩
  else
    let r := download_file resp cfg.max_retries
    ⟨r.success, r.attempts, if r.success then [path] else []⟩

/-- Python `str.strip()`: remove whitespace from both ends
(implemented structurally over the character list so that the kernel can
evaluate it). -/
def pyStrip (s : String) : String :=
  ⟨((s.data.dropWhile Char.isWhitespace).reverse.dropWhile
      Char.isWhitespace).reverse⟩

/-- Python `str.startswith(pre)`. -/
def pyStartsWith (pre s : String) : Bool :=
  pre.data.isPrefixOf s.data

/-- Python `str.endswith(post)`. -/
def pyEndsWith (post s : String) : Bool :=
  post.data.reverse.isPrefixOf s.data.reverse

/-- Python `str.split(sep)` for a one-character separator, on character
lists: every (possibly empty) run between separators is one field. -/
def splitCharList (sep : Char) : List Char → List (List Char)
  | [] => [[]]
  | c :: cs =>
    let r := splitCharList sep cs
    if c = sep then [] :: r
    else (c :: r.headD []) :: r.tail

/-- Python `str.split(sep)` for a one-character separator. -/
def pySplitChar (sep : Char) (s : String) : List String :=
  (splitCharList sep s.data).map fun cs => ⟨cs⟩

/-- Python `str.split(sep, 1)` for a one-character separator that occurs
in the string: the part before the first occurrence and the part after
it. -/
def splitFirstChar (sep : Char) (s : String) : String × String :=
  (⟨s.data.takeWhile (fun c => c ≠ sep)⟩,
   ⟨(s.data.dropWhile (fun c => c ≠ sep)).tail⟩)

/-- Embedding of one iteration of `AMassDownloader.load_cookies_from_file`'s
line loop: strip the line; skip it when empty or starting with '#';
when splitting on tabs yields at least 7 fields, the cookie is
(field 6, field 7) (1-indexed); otherwise, when the line contains '=',
split at the first '=' and strip both parts; otherwise no cookie. -/
def parseCookieLine (rawLine : String) : Option (String × String) :=
  let line := pyStrip rawLine
  if line = "" ∨ pyStartsWith "#" line then none
  else
    let parts := pySplitChar '\t' line
    if 7 ≤ parts.length then
      some (parts.getD 5 "", parts.getD 6 "")
    else if line.data.contains '=' then
      let pieces := splitFirstChar '=' line
      some (pyStrip pieces.1, pyStrip pieces.2)
    else none

/-- Python dict assignment `d[name] = value` on an insertion-ordered
association list: overwrite in place when the key exists, else append. -/
def dict_set (d : List (String × String)) (name value : String) :
    List (String × String) :=
  if d.any (fun p => p.1 == name) then
    d.map (fun p => if p.1 = name then (name, value) else p)
  else d ++ [(name, value)]

/-- The whole line loop of `load_cookies_from_file` over the file's
lines, accumulating cookies into the (initially empty) dict. -/
def load_cookie_lines (lines : List String) : List (String × String) :=
  lines.foldl
    (fun acc line =>
      match parseCookieLine line with
      | some (n, v) => dict_set acc n v
      | none => acc)
    []

/-- What reading the cookie file can yield: the file is absent
(`os.path.exists` is false), reading raises, or it has these lines. -/
inductive FileRead where
  | missing
  | ioError
  | ok (lines : List String)
deriving DecidableEq

/-- Embedding of `AMassDownloader.load_cookies_from_file`: a missing file
returns the (empty) dict after a warning; an exception while reading is
caught and returns an empty dict; otherwise the lines are parsed. -/
def load_cookies_from_file (fs : String → FileRead) (cookie_file : String) :
    List (String × String) :=
  match fs cookie_file with
  | FileRead.missing => []
  | FileRead.ioError => []
  | FileRead.ok lines => load_cookie_lines lines

/-- What reading the configuration file can yield: missing file,
malformed JSON, or a parsed configuration. -/
inductive ConfigRead where
  | missing
  | badJson
  | ok (cfg : DLConfig)
deriving DecidableEq

/-- Embedding of `AMassDownloader.load_config`: a missing file or a JSON
decode error calls `sys.exit(1)` (modelled as `Except.error 1`);
otherwise the parsed configuration is returned. -/
def load_config (fs : String → ConfigRead) (config_path : String) :
    Except Nat DLConfig :=
  match fs config_path with
  | ConfigRead.missing => Except.error 1
  | ConfigRead.badJson => Except.error 1
  | ConfigRead.ok cfg => Except.ok cfg

/-- Observable trace of one `download_all` call: the recorded results in
insertion order, the sleep durations in seconds, and the worker-pool size
when a pool was created (`none` in the sequential branch). -/
structure BatchRun where
  results : List (String × Bool)
  sleeps : List Nat
  poolSize : Option Nat
deriving DecidableEq, Repr

/-- The sequential branch of `AMassDownloader.download_all`: download
each dataset in list order (outcome given by the oracle `dl`), recording
its result, and sleep 2 seconds after each download except the last
(the code's `if i < len(datasets)` check). -/
def download_seq (dl : String → Bool) : List String → BatchRun
  | [] => ⟨[], [], none⟩
  | [d] => ⟨[(d, dl d)], [], none⟩
  | d :: rest =>
    let r := download_seq dl rest
    ⟨(d, dl d) :: r.results, 2 :: r.sleeps, none⟩

/-- Embedding of `AMassDownloader.download_all`: with one worker or one
dataset, run the sequential branch; otherwise submit every dataset to a
pool of `max_workers` workers and record each result as it completes —
`completionOrder` is the order in which the futures complete, a
permutation of the dataset list. -/
def download_all (dl : String → Bool) (max_workers : Nat)
    (datasets completionOrder : List String) : BatchRun :=
  if max_workers = 1 ∨ datasets.length = 1 then
    download_seq dl datasets
  else
    { results := completionOrder.map (fun d => (d, dl d))
      sleeps := []
      poolSize := some max_workers }

/-- The pattern `*.tar.bz2` as matched by `pathlib.Path.glob` in
`AMassExtractor.find_archives`: `*` matches any (possibly empty) run of
characters of the entry name, hidden dotfiles included — pathlib's glob,
unlike the glob module, does not skip names starting with '.' — so a
name matches exactly when it ends in ".tar.bz2". -/
def matchesTarBz2 (name : String) : Bool :=
  pyEndsWith ".tar.bz2" name

/-- Embedding of `AMassExtractor.find_archives`: an absent input
directory yields no archives after an error log; otherwise the directory
entries matching `*.tar.bz2`. -/
def find_archives (dirExists : Bool) (entries : List String) : List String :=
  if dirExists then entries.filter matchesTarBz2 else []

/-- Embedding of `AMassExtractor.extract_archive`: opening the tar and
extracting every member either completes or raises; `extractOk` is the
oracle saying whether the archive extracts cleanly. Every exception
(tarfile.TarError or any other) is caught and turned into False. -/
def extract_archive (extractOk : String → Bool) (archive : String) : Bool :=
  extractOk archive

/-- Observable trace of one `extract_all` call: the recorded results in
insertion order, the archives on which `os.remove` was attempted, and
those actually removed (`deleteOk` failing models `os.remove` raising,
which is caught and only logged). -/
structure ExtractRun where
  results : List (String × Bool)
  deleteAttempts : List String
  deleted : List String
deriving DecidableEq, Repr

/-- The per-archive loop of `AMassExtractor.extract_all` over the
archives in processing order (discovery order when sequential,
completion order when pooled — the recorded per-archive logic is
identical in both branches): extract, record the result, and when the
extraction succeeded and deletion is requested, attempt `os.remove`,
whose own failure is caught and logged without changing the result. -/
def extract_loop (extractOk deleteOk : String → Bool) (del : Bool) :
    List String → ExtractRun
  | [] => ⟨[], [], []⟩
  | a :: rest =>
    let success := extract_archive extractOk a
    let r := extract_loop extractOk deleteOk del rest
    { results := (a, success) :: r.results
      deleteAttempts := (if success && del then [a] else []) ++ r.deleteAttempts
      deleted := (if success && del && deleteOk a then [a] else []) ++ r.deleted }

/-- Embedding of `AMassExtractor.extract_all`: find the archives; when
none are found, warn and return the empty mapping; otherwise run the
per-archive loop. -/
def extract_all (extractOk deleteOk : String → Bool) (dirExists : Bool)
    (entries : List String) (del : Bool) : ExtractRun :=
  let archives := find_archives dirExists entries
  if archives.isEmpty then ⟨[], [], []⟩
  else extract_loop extractOk deleteOk del archives

/-- The exit code of `extract_amass.main` in batch mode: 1 when any
recorded result is False (`if not all(results.values()): sys.exit(1)`),
else 0. -/
def extractor_exit_code (r : ExtractRun) : Nat :=
  if r.results.all (fun p => p.2) then 0 else 1

/-! ## Helper lemmas -/

theorem responseStep_none_of_transient {o : Outcome}
    (h : transientOutcome o = true) : responseStep o = none := by
  cases o with
  | status code =>
    simp only [transientOutcome, Bool.not_eq_eq_eq_not, Bool.not_true, Bool.or_eq_false_iff,
      beq_eq_false_iff_ne, ne_eq] at h
    obtain ⟨⟨h1, h2⟩, h3⟩ := h
    simp [responseStep, h1, h2, h3]
  | exc => rfl


theorem sleep_schedule_shift (attempt k2 : Nat) :
    (List.range (k2 + 2 - 1)).map (fun i => 5 * (attempt + i + 1)) =
      5 * (attempt + 1) ::
        (List.range (k2 + 1 - 1)).map (fun i => 5 * (attempt + 1 + i + 1)) := by
  have h1 : k2 + 2 - 1 = k2 + 1 := rfl
  have h2 : k2 + 1 - 1 = k2 := rfl
  rw [h1, h2, List.range_succ_eq_map, List.map_cons, List.map_map]
  simp only [Nat.add_zero]
  refine congrArg _ ?_
  apply List.map_congr_left
  intro i _
  simp only [Function.comp_apply]
  omega

theorem download_file_loop_reaches (resp : Nat → Outcome) (maxRetries : Nat) :
    ∀ (k fuel attempt : Nat) (b : Bool),
      1 ≤ k → k ≤ fuel → attempt + fuel = maxRetries →
      (∀ i, i < k - 1 → transientOutcome (resp (attempt + i)) = true) →
      responseStep (resp (attempt + (k - 1))) = some b →
      download_file_loop resp maxRetries fuel attempt =
        ⟨b, k, (List.range (k - 1)).map (fun i => 5 * (attempt + i + 1))⟩ := by
  intro k
  induction k with
  | zero => intro fuel attempt b h1 h2 h3 h4 h5; omega
  | succ k ih =>
    intro fuel attempt b _ hk hinv hfail hstep
    obtain ⟨fuel2, rfl⟩ : ∃ m, fuel = m + 1 := ⟨fuel - 1, by omega⟩
    cases k with
    | zero =>
      have hstep0 : responseStep (resp attempt) = some b := by simpa using hstep
      simp [download_file_loop, hstep0]
    | succ k2 =>
      have h0 : transientOutcome (resp attempt) = true := by
        have := hfail 0 (by omega)
        simpa using this
      have hnone := responseStep_none_of_transient h0
      have hlt : attempt < maxRetries - 1 := by omega
      have hrest := ih fuel2 (attempt + 1) b (by omega) (by omega) (by omega)
        (fun i hi => by
          have := hfail (i + 1) (by omega)
          have harr : attempt + (i + 1) = attempt + 1 + i := by omega
          rwa [harr] at this)
        (by
          have harr : attempt + 1 + (k2 + 1 - 1) = attempt + (k2 + 2 - 1) := by omega
          rwa [harr])
      have hgoal : download_file_loop resp maxRetries (fuel2 + 1) attempt =
          ⟨b, k2 + 1 + 1, 5 * (attempt + 1) ::
            (List.range (k2 + 1 - 1)).map (fun i => 5 * (attempt + 1 + i + 1))⟩ := by
        simp [download_file_loop, hnone, hlt, hrest]
      rw [hgoal, sleep_schedule_shift]

theorem download_file_loop_all_transient (resp : Nat → Outcome) (maxRetries : Nat) :
    ∀ (fuel attempt : Nat), attempt + fuel = maxRetries →
      (∀ i, attempt ≤ i → i < maxRetries → transientOutcome (resp i) = true) →
      (download_file_loop resp maxRetries fuel attempt).success = false := by
  intro fuel
  induction fuel with
  | zero => intro attempt _ _; rfl
  | succ fuel ih =>
    intro attempt hinv hfail
    have h0 : transientOutcome (resp attempt) = true :=
      hfail attempt (Nat.le_refl _) (by omega)
    have hnone := responseStep_none_of_transient h0
    by_cases hlt : attempt < maxRetries - 1
    · have hrest := ih (attempt + 1) (by omega)
        (fun i h1 h2 => hfail i (by omega) h2)
      simp [download_file_loop, hnone, hlt, hrest]
    · simp [download_file_loop, hnone, hlt]

/-! ## Claim theorems -/

/-- C1: for every dataset name, body model, and gender, `get_download_url`
returns a deterministic (url, filename) pair depending only on those
three inputs, equal to the spec's description: model directory "smplh"
for "SMPL-H", "smplx" for "SMPL-X", "smplh" otherwise; gender directory
"gender_specific" for "male"/"female", "neutral" otherwise; url the fixed
endpoint with query parameters
domain=amass&resume=1&sfile=amass_per_dataset/<model_dir>/<gender_dir>/mosh_results/<dataset>.tar.bz2;
filename <dataset>_<model_dir>_<gender>.tar.bz2. -/
theorem get_download_url_matches_spec :
    ∀ dataset body_model gender,
      get_download_url dataset body_model gender =
        spec_download_url dataset body_model gender :=
  fun _ _ _ => rfl

/-- C2: when the first k-1 attempts yield transient outcomes (non-200,
non-401, non-403 statuses or exceptions) and attempt k ≤ max_retries
yields 200, `download_file` succeeds on attempt k having slept 5*i
seconds after each failed attempt i; when all max_retries attempts yield
transient outcomes, it fails. -/
theorem download_file_retry_schedule :
    (∀ (resp : Nat → Outcome) (maxRetries k : Nat),
        1 ≤ k → k ≤ maxRetries →
        (∀ i, i < k - 1 → transientOutcome (resp i) = true) →
        resp (k - 1) = Outcome.status 200 →
        download_file resp maxRetries =
          ⟨true, k, (List.range (k - 1)).map (fun i => 5 * (i + 1))⟩) ∧
    (∀ (resp : Nat → Outcome) (maxRetries : Nat),
        (∀ i, i < maxRetries → transientOutcome (resp i) = true) →
        (download_file resp maxRetries).success = false) := by
  constructor
  · intro resp maxRetries k h1 h2 hfail h200
    have hstep : responseStep (resp (0 + (k - 1))) = some true := by
      simp only [Nat.zero_add]
      rw [h200]
      rfl
    have h := download_file_loop_reaches resp maxRetries k maxRetries 0 true h1 h2
      (by omega) (fun i hi => by simpa using hfail i hi) hstep
    rw [download_file, h]
    simp
  · intro resp maxRetries hfail
    exact download_file_loop_all_transient resp maxRetries maxRetries 0 (by omega)
      (fun i _ h2 => hfail i h2)

/-- Witness for C2: with responses 500, 500, 200 and max_retries = 3 the
download succeeds on attempt 3 after sleeping 5 then 10 seconds; with
exceptions on every attempt it fails. -/
theorem download_file_retry_schedule_witness :
    download_file (fun i => if i < 2 then Outcome.status 500 else Outcome.status 200) 3 =
      ⟨true, 3, [5, 10]⟩ ∧
    (download_file (fun _ => Outcome.exc) 3).success = false := by
  constructor
  · have h := download_file_retry_schedule.1
      (fun i => if i < 2 then Outcome.status 500 else Outcome.status 200) 3 3
      (by decide) (by decide) (by decide) (by decide)
    exact h.trans (by decide)
  · exact download_file_retry_schedule.2 (fun _ => Outcome.exc) 3 (by decide)

/-- C3: when an attempt k (preceded only by transient outcomes) yields
status 401 or 403, `download_file` returns failure immediately from that
attempt: exactly k requests were issued and no sleep follows attempt k. -/
theorem download_file_auth_abort (resp : Nat → Outcome) (maxRetries k code : Nat)
    (hk : 1 ≤ k) (hle : k ≤ maxRetries)
    (hfail : ∀ i, i < k - 1 → transientOutcome (resp i) = true)
    (hauth : resp (k - 1) = Outcome.status code) (hcode : code = 401 ∨ code = 403) :
    download_file resp maxRetries =
      ⟨false, k, (List.range (k - 1)).map (fun i => 5 * (i + 1))⟩ := by
  have hstep : responseStep (resp (0 + (k - 1))) = some false := by
    simp only [Nat.zero_add]
    rw [hauth]
    rcases hcode with h | h <;> subst h <;> rfl
  have h := download_file_loop_reaches resp maxRetries k maxRetries 0 false hk hle
    (by omega) (fun i hi => by simpa using hfail i hi) hstep
  rw [download_file, h]
  simp

/-- Witness for C3: with responses 500 then 401 and max_retries = 3, the
download fails after exactly 2 requests, with only the one sleep that
followed the transient failure. -/
theorem download_file_auth_abort_witness :
    download_file (fun i => if i = 0 then Outcome.status 500 else Outcome.status 401) 3 =
      ⟨false, 2, [5]⟩ := by
  have h := download_file_auth_abort
    (fun i => if i = 0 then Outcome.status 500 else Outcome.status 401) 3 2 401
    (by decide) (by decide) (by decide) (by decide) (Or.inl rfl)
  exact h.trans (by decide)

/-- C4: when the destination file output_dir/<filename> already exists,
`download_dataset` returns success with no HTTP request and no file
write, and repeating the call on the resulting (unchanged) filesystem
again returns success the same way. -/
theorem download_dataset_skip_existing (cfg : DLConfig) (fs : List String)
    (resp : Nat → Outcome) (dataset : String)
    (h : output_path cfg dataset ∈ fs) :
    download_dataset cfg fs resp dataset = ⟨true, 0, []⟩ ∧
    download_dataset cfg
        (fs ++ (download_dataset cfg fs resp dataset).writes) resp dataset =
      ⟨true, 0, []⟩ := by
  have h1 : download_dataset cfg fs resp dataset = ⟨true, 0, []⟩ := by
    simp [download_dataset, h]
  refine ⟨h1, ?_⟩
  rw [h1]
  simp [download_dataset, h]

/-- Witness for C4: a config and a filesystem already holding the
destination of dataset CMU; the call and its repetition both succeed
without requests or writes. -/
theorem download_dataset_skip_existing_witness :
    download_dataset ⟨"SMPL-H", "neutral", "amass_data", 3⟩
        [output_path ⟨"SMPL-H", "neutral", "amass_data", 3⟩ "CMU"]
        (fun _ => Outcome.exc) "CMU" = ⟨true, 0, []⟩ ∧
    download_dataset ⟨"SMPL-H", "neutral", "amass_data", 3⟩
        ([output_path ⟨"SMPL-H", "neutral", "amass_data", 3⟩ "CMU"] ++
          (download_dataset ⟨"SMPL-H", "neutral", "amass_data", 3⟩
              [output_path ⟨"SMPL-H", "neutral", "amass_data", 3⟩ "CMU"]
              (fun _ => Outcome.exc) "CMU").writes)
        (fun _ => Outcome.exc) "CMU" = ⟨true, 0, []⟩ :=
  download_dataset_skip_existing _ _ _ _ (List.Mem.head _)

/-- C5: cookie-line parsing skips blank lines and lines starting with
'#'; a line with at least 7 tab-separated fields yields the cookie
(field 6, field 7) (1-indexed); any other line containing '=' yields the
cookie obtained by splitting at the first '=' and stripping whitespace;
in particular the 7-field line yields SESSION=abc123 and FOO=bar yields
FOO=bar. -/
theorem parseCookieLine_formats :
    (∀ line : String,
        (pyStrip line = "" ∨ pyStartsWith "#" (pyStrip line) = true) →
        parseCookieLine line = none) ∧
    (∀ line : String,
        ¬(pyStrip line = "" ∨ pyStartsWith "#" (pyStrip line) = true) →
        7 ≤ (pySplitChar '\t' (pyStrip line)).length →
        parseCookieLine line =
          some ((pySplitChar '\t' (pyStrip line)).getD 5 "",
            (pySplitChar '\t' (pyStrip line)).getD 6 "")) ∧
    (∀ line : String,
        ¬(pyStrip line = "" ∨ pyStartsWith "#" (pyStrip line) = true) →
        (pySplitChar '\t' (pyStrip line)).length < 7 →
        (pyStrip line).data.contains '=' = true →
        parseCookieLine line =
          some (pyStrip (splitFirstChar '=' (pyStrip line)).1,
            pyStrip (splitFirstChar '=' (pyStrip line)).2)) ∧
    parseCookieLine "x\tTRUE\t/\tFALSE\t0\tSESSION\tabc123" =
      some ("SESSION", "abc123") ∧
    parseCookieLine "FOO=bar" = some ("FOO", "bar") ∧
    load_cookie_lines
        ["# a comment", "", "x\tTRUE\t/\tFALSE\t0\tSESSION\tabc123", "FOO=bar"] =
      [("SESSION", "abc123"), ("FOO", "bar")] := by
  refine ⟨?_, ?_, ?_, ?_, ?_, ?_⟩
  · intro line h
    simp only [parseCookieLine]
    rw [if_pos h]
  · intro line h1 h2
    simp only [parseCookieLine]
    rw [if_neg h1, if_pos h2]
  · intro line h1 h2 h3
    simp only [parseCookieLine]
    rw [if_neg h1, if_neg (by omega), if_pos h3]
  · decide
  · decide
  · decide

/-- Witness for C5: the 7-tab-field skeleton line parses to its sixth and
seventh fields. -/
theorem parseCookieLine_formats_witness :
    parseCookieLine "a\tb\tc\td\te\tf\tg" = some ("f", "g") := by
  have h := parseCookieLine_formats.2.1 "a\tb\tc\td\te\tf\tg" (by decide) (by decide)
  exact h.trans (by decide)

/-- C9: a missing cookie file, and any exception while reading it, make
`load_cookies_from_file` return an empty cookie mapping (the run
continues with no session cookies), while a missing configuration file
makes `load_config` terminate the process with exit code 1. -/
theorem cookie_file_errors_nonfatal (fs : String → FileRead)
    (cfs : String → ConfigRead) (cookie_path config_path : String)
    (h1 : fs cookie_path = FileRead.missing ∨ fs cookie_path = FileRead.ioError)
    (h2 : cfs config_path = ConfigRead.missing) :
    load_cookies_from_file fs cookie_path = [] ∧
    load_config cfs config_path = Except.error 1 := by
  constructor
  · rcases h1 with h | h <;> simp [load_cookies_from_file, h]
  · simp [load_config, h2]

/-- Witness for C9: a filesystem with no cookie file and no
configuration file. -/
theorem cookie_file_errors_nonfatal_witness :
    load_cookies_from_file (fun _ => FileRead.missing) "cookies.txt" = [] ∧
    load_config (fun _ => ConfigRead.missing) "config.json" = Except.error 1 :=
  cookie_file_errors_nonfatal (fun _ => FileRead.missing)
    (fun _ => ConfigRead.missing) "cookies.txt" "config.json" (Or.inl rfl) rfl

theorem extract_loop_results (eok dok : String → Bool) (del : Bool)
    (l : List String) :
    (extract_loop eok dok del l).results =
      l.map (fun a => (a, extract_archive eok a)) := by
  induction l with
  | nil => rfl
  | cons a rest ih => simp [extract_loop, ih]

theorem extract_loop_deleteAttempts (eok dok : String → Bool) (del : Bool)
    (l : List String) :
    (extract_loop eok dok del l).deleteAttempts =
      l.filter (fun a => extract_archive eok a && del) := by
  induction l with
  | nil => rfl
  | cons a rest ih =>
    by_cases h : (extract_archive eok a && del) = true <;>
      simp [extract_loop, ih, List.filter_cons, h]

theorem download_seq_eq (dl : String → Bool) :
    ∀ l : List String,
      download_seq dl l =
        ⟨l.map (fun d => (d, dl d)), List.replicate (l.length - 1) 2, none⟩ := by
  intro l
  induction l with
  | nil => rfl
  | cons d rest ih =>
    cases rest with
    | nil => rfl
    | cons e rest2 =>
      simp [download_seq, ih, List.replicate_succ]

/-- C6: when exactly one of the discovered archives fails to extract,
`extract_all` returns a result mapping keyed by archive path with one
entry per archive, exactly one of them false (the failing archive does
not abort the rest), and the batch run then exits with code 1. -/
theorem extract_all_single_failure (eok dok : String → Bool) (dirExists : Bool)
    (entries : List String) (del : Bool)
    (h : ((find_archives dirExists entries).filter
        (fun a => !extract_archive eok a)).length = 1) :
    (extract_all eok dok dirExists entries del).results.map Prod.fst =
      find_archives dirExists entries ∧
    (extract_all eok dok dirExists entries del).results.length =
      (find_archives dirExists entries).length ∧
    ((extract_all eok dok dirExists entries del).results.filter
        (fun p => !p.2)).length = 1 ∧
    ((extract_all eok dok dirExists entries del).results.filter
        (fun p => p.2)).length = (find_archives dirExists entries).length - 1 ∧
    extractor_exit_code (extract_all eok dok dirExists entries del) = 1 := by
  have hne : (find_archives dirExists entries).isEmpty = false := by
    rcases he : (find_archives dirExists entries) with _ | ⟨a, l⟩
    · rw [he] at h
      simp at h
    · rfl
  have hall : extract_all eok dok dirExists entries del =
      extract_loop eok dok del (find_archives dirExists entries) := by
    rw [extract_all]
    simp [hne]
  have hres : (extract_all eok dok dirExists entries del).results =
      (find_archives dirExists entries).map
        (fun a => (a, extract_archive eok a)) := by
    rw [hall, extract_loop_results]
  have hfalse : ((extract_all eok dok dirExists entries del).results.filter
      (fun p => !p.2)).length = 1 := by
    rw [hres, List.filter_map, List.length_map]
    exact h
  have htrue : ((extract_all eok dok dirExists entries del).results.filter
      (fun p => p.2)).length = (find_archives dirExists entries).length - 1 := by
    rw [hres, List.filter_map, List.length_map]
    have hsplit := List.length_eq_length_filter_add
      (l := find_archives dirExists entries) (fun a => extract_archive eok a)
    have hh : ((find_archives dirExists entries).filter
        ((fun p : String × Bool => p.2) ∘ fun a => (a, extract_archive eok a))).length =
        ((find_archives dirExists entries).filter
          (fun a => extract_archive eok a)).length := rfl
    rw [hh]
    omega
  refine ⟨?_, ?_, hfalse, htrue, ?_⟩
  · rw [hres, List.map_map]
    have hid : (Prod.fst ∘ fun a : String => (a, extract_archive eok a)) = id := rfl
    rw [hid, List.map_id]
  · rw [hres, List.length_map]
  · rw [extractor_exit_code]
    have hpos : 0 < ((extract_all eok dok dirExists entries del).results.filter
        (fun p => !p.2)).length := by omega
    obtain ⟨x, hx⟩ := List.exists_mem_of_length_pos hpos
    obtain ⟨hxmem, hxfalse⟩ := List.mem_filter.mp hx
    rw [if_neg]
    intro hcontra
    have := List.all_eq_true.mp hcontra x hxmem
    simp [this] at hxfalse

/-- Witness for C6: three directory entries, two archives, one of which
(b.tar.bz2) fails to extract: one false result and exit code 1. -/
theorem extract_all_single_failure_witness :
    ((extract_all (fun a => !(a == "b.tar.bz2")) (fun _ => true) true
        ["a.tar.bz2", "b.tar.bz2", "c.txt"] false).results.filter
        (fun p => !p.2)).length = 1 ∧
    extractor_exit_code (extract_all (fun a => !(a == "b.tar.bz2")) (fun _ => true)
        true ["a.tar.bz2", "b.tar.bz2", "c.txt"] false) = 1 := by
  have h := extract_all_single_failure (fun a => !(a == "b.tar.bz2"))
    (fun _ => true) true ["a.tar.bz2", "b.tar.bz2", "c.txt"] false (by decide)
  exact ⟨h.2.2.1, h.2.2.2.2⟩

/-- C7: with the delete option set, deletion of a source archive is
attempted exactly for the archives whose extraction succeeded, and the
recorded results do not depend on whether any deletion itself fails. -/
theorem extract_delete_policy (eok dok : String → Bool) (archives : List String) :
    (∀ a, a ∈ (extract_loop eok dok true archives).deleteAttempts ↔
        (a ∈ archives ∧ extract_archive eok a = true)) ∧
    (∀ dok2, (extract_loop eok dok true archives).results =
        (extract_loop eok dok2 true archives).results) := by
  constructor
  · intro a
    rw [extract_loop_deleteAttempts]
    simp [List.mem_filter]
  · intro dok2
    rw [extract_loop_results, extract_loop_results]

/-- C8: with one worker or a single dataset, `download_all` runs
sequentially in list order with a 2-second pause between consecutive
downloads and none after the last; otherwise it submits every dataset to
a pool of the configured size and records one result per dataset
whatever the completion order. -/
theorem download_all_modes (dl : String → Bool) (max_workers : Nat)
    (datasets completionOrder : List String) :
    ((max_workers = 1 ∨ datasets.length = 1) →
      download_all dl max_workers datasets completionOrder =
        ⟨datasets.map (fun d => (d, dl d)),
          List.replicate (datasets.length - 1) 2, none⟩) ∧
    (¬(max_workers = 1 ∨ datasets.length = 1) →
      completionOrder.Perm datasets →
      (download_all dl max_workers datasets completionOrder).poolSize =
          some max_workers ∧
      (download_all dl max_workers datasets completionOrder).results.length =
          datasets.length ∧
      ∀ d ∈ datasets,
        (d, dl d) ∈ (download_all dl max_workers datasets completionOrder).results) := by
  constructor
  · intro h
    rw [download_all, if_pos h, download_seq_eq]
  · intro h hperm
    rw [download_all, if_neg h]
    refine ⟨rfl, ?_, ?_⟩
    · simp [hperm.length_eq]
    · intro d hd
      simp only [List.mem_map]
      exact ⟨d, hperm.mem_iff.mpr hd, rfl⟩

/-- Witness for C8: three datasets downloaded with one worker run in
order with pauses [2, 2]; with two workers and completion order B, C, A
a pool of size 2 is used and A's result is still recorded. -/
theorem download_all_modes_witness :
    download_all (fun _ => true) 1 ["A", "B", "C"] ["A", "B", "C"] =
      ⟨[("A", true), ("B", true), ("C", true)], [2, 2], none⟩ ∧
    (download_all (fun _ => true) 2 ["A", "B", "C"] ["B", "C", "A"]).poolSize =
      some 2 ∧
    ("A", true) ∈
      (download_all (fun _ => true) 2 ["A", "B", "C"] ["B", "C", "A"]).results := by
  have h1 := (download_all_modes (fun _ => true) 1 ["A", "B", "C"]
    ["A", "B", "C"]).1 (Or.inl rfl)
  have h2 := (download_all_modes (fun _ => true) 2 ["A", "B", "C"]
    ["B", "C", "A"]).2 (by decide) (by decide)
  exact ⟨h1.trans (by decide), h2.1, h2.2.2 "A" (by decide)⟩

/-- C10: when the input directory does not exist or holds no file
matching *.tar.bz2, `extract_all` returns the empty result mapping and
the batch run exits with code 0. -/
theorem extract_all_empty_scan (eok dok : String → Bool) (dirExists : Bool)
    (entries : List String) (del : Bool)
    (h : dirExists = false ∨ entries.filter matchesTarBz2 = []) :
    extract_all eok dok dirExists entries del = ⟨[], [], []⟩ ∧
    extractor_exit_code (extract_all eok dok dirExists entries del) = 0 := by
  have hfa : find_archives dirExists entries = [] := by
    rcases h with h | h
    · simp [find_archives, h]
    · simp [find_archives, h]
  have h1 : extract_all eok dok dirExists entries del = ⟨[], [], []⟩ := by
    simp [extract_all, hfa]
  exact ⟨h1, by rw [h1]; rfl⟩

/-- Witness for C10: a missing input directory yields the empty mapping
and exit code 0. -/
theorem extract_all_empty_scan_witness :
    extract_all (fun _ => true) (fun _ => true) false ["a.tar.bz2"] false =
      ⟨[], [], []⟩ ∧
    extractor_exit_code (extract_all (fun _ => true) (fun _ => true) false
      ["a.tar.bz2"] false) = 0 :=
  extract_all_empty_scan (fun _ => true) (fun _ => true) false ["a.tar.bz2"]
    false (Or.inl rfl)

/-- Witness for C7: with b.tar.bz2 failing to extract and deletion
requested, deletion is attempted for the successfully extracted
a.tar.bz2, and the recorded results are unchanged when every deletion
itself fails. -/
theorem extract_delete_policy_witness :
    ("a.tar.bz2" ∈ (extract_loop (fun a => !(a == "b.tar.bz2")) (fun _ => true)
        true ["a.tar.bz2", "b.tar.bz2"]).deleteAttempts ↔
      ("a.tar.bz2" ∈ ["a.tar.bz2", "b.tar.bz2"] ∧
        extract_archive (fun a => !(a == "b.tar.bz2")) "a.tar.bz2" = true)) ∧
    (extract_loop (fun a => !(a == "b.tar.bz2")) (fun _ => true) true
        ["a.tar.bz2", "b.tar.bz2"]).results =
      (extract_loop (fun a => !(a == "b.tar.bz2")) (fun _ => false) true
        ["a.tar.bz2", "b.tar.bz2"]).results := by
  have h := extract_delete_policy (fun a => !(a == "b.tar.bz2")) (fun _ => true)
    ["a.tar.bz2", "b.tar.bz2"]
  exact ⟨h.1 "a.tar.bz2", h.2 (fun _ => false)⟩
